import Mathlib

/-!
# Verification of the tan LSP server dispatch loop and diagnostics pipeline

Shallow embedding of `src/main.rs` of `tan_lsp_server`.  Texts are lists of
Unicode scalar values (`List Char`); byte offsets are measured via the UTF-8
encoded length of each character, columns via the UTF-16 encoded length, as
the LSP position convention requires.

Components whose code lives in external crates (the `tan` parser crate's
`Position::from` translator and the `lsp-server` crate's `extract` /
`handle_shutdown` helpers) are modelled from the specification, as marked in
their doc comments.  Everything else is translated from `src/main.rs`.
-/

namespace TanLsp

/- ## Text model: UTF-8 byte offsets, UTF-16 columns -/

/-- Number of bytes of the UTF-8 encoding of a Unicode scalar value. -/
def utf8Len (c : Char) : Nat :=
  if c.toNat < 0x80 then 1
  else if c.toNat < 0x800 then 2
  else if c.toNat < 0x10000 then 3
  else 4

/-- Number of UTF-16 code units of the encoding of a Unicode scalar value
(scalar values above the Basic Multilingual Plane need a surrogate pair). -/
def utf16Len (c : Char) : Nat :=
  if c.toNat < 0x10000 then 1 else 2

/-- Byte length of the UTF-8 encoding of a text. -/
def utf8Length (l : List Char) : Nat := (l.map utf8Len).sum

/-- UTF-16 code-unit length of a text. -/
def utf16Length (l : List Char) : Nat := (l.map utf16Len).sum

/-- A character is a line terminator exactly when it is a newline. -/
def isLineTerminator (c : Char) : Bool := c = '\n'

/-- A line/column pair, zero-based, as in `tan::range::Position`
(`src/main.rs` reads its `line` and `col` fields). -/
structure Position where
  line : Nat
  col : Nat
deriving DecidableEq, Repr

/-- Scanning loop of the offset-to-position translator: walk the text from
the start, consuming `o` bytes; a line terminator bumps the line counter and
resets the column, any other character adds its UTF-16 length to the column. -/
def positionOfAux : List Char → Nat → Nat → Nat → Position
  | _, 0, line, col => ⟨line, col⟩
  | [], _ + 1, line, col => ⟨line, col⟩
  | c :: rest, o + 1, line, col =>
    if isLineTerminator c then
      positionOfAux rest (o + 1 - utf8Len c) (line + 1) 0
    else
      positionOfAux rest (o + 1 - utf8Len c) line (col + utf16Len c)

/-- Modelled from the spec: `tan::range::Position::from(byte_offset, text)`
(the `tan` crate is not part of this repository's sources).  Spec §4.1: scan
`text` from its start, counting line terminators encountered strictly before
`byte_offset`; the column is the number of UTF-16 code units between the
start of the line containing `byte_offset` and `byte_offset` itself. -/
def positionOf (text : List Char) (byteOffset : Nat) : Position :=
  positionOfAux text byteOffset 0 0

/-- Number of line terminators in a text. -/
def newlineCount (l : List Char) : Nat := (l.filter isLineTerminator).length

/-- The characters strictly after the last line terminator of a text
(the whole text when it has no terminator). -/
def afterLastTerm (l : List Char) : List Char :=
  (l.reverse.takeWhile (fun c => !(isLineTerminator c))).reverse

/-- UTF-16 code-unit distance from the start of the line containing the end
of the text to the end of the text. -/
def colCount (l : List Char) : Nat := utf16Length (afterLastTerm l)

/- ## Protocol data model (from `src/main.rs` and the types it uses) -/

/-- A JSON value, as carried in the untyped `params` and `result` fields of
protocol messages. -/
inductive Json where
  | null
  | bool (b : Bool)
  | num (n : Int)
  | str (s : String)
  | arr (elems : List Json)
  | obj (fields : List (String × Json))

/-- `lsp_server::RequestId`: either a number or a string. -/
inductive RequestId where
  | num (n : Int)
  | str (s : String)
deriving DecidableEq, Repr

/-- `lsp_server::Request`: an identifier, a method name and untyped params. -/
structure Request where
  id : RequestId
  method : String
  params : Json

/-- `lsp_server::ExtractError<Request>`: either the params failed to
deserialize for a matching method, or the method did not match and the
original request is handed back. -/
inductive ExtractErr where
  | jsonError (method : String) (error : String)
  | methodMismatch (req : Request)

/-- Modelled from the spec: `lsp_server::Request::extract` as called through
`cast` in `src/main.rs` (the `lsp-server` crate is not part of this
repository's sources).  Spec §4.2: on method-name mismatch the original
message is returned unconsumed; on a match the params are deserialized,
yielding either the identifier/params pair or a deserialization error.
The deserializer for the target params type is passed in as `decode`. -/
def extract {P : Type} (req : Request) (method : String)
    (decode : Json → Except String P) :
    Except ExtractErr (RequestId × P) :=
  if req.method = method then
    match decode req.params with
    | .ok p => .ok (req.id, p)
    | .error e => .error (.jsonError req.method e)
  else
    .error (.methodMismatch req)

/-- A file URI; `uri.path` models `Url::path()`, the filesystem path the
server reads the changed file from (`src/main.rs` line 75). -/
structure Uri where
  raw : String
  path : String
deriving DecidableEq, Repr

/-- One entry of a `didChangeWatchedFiles` notification: a URI plus the
change kind (1 = Created, 2 = Changed, 3 = Deleted). -/
structure FileEvent where
  uri : Uri
  typ : Nat
deriving DecidableEq, Repr

/-- `lsp_types::DidChangeWatchedFilesParams`. -/
structure DidChangeWatchedFilesParams where
  changes : List FileEvent
deriving DecidableEq, Repr

/-- One parser error, as produced by `tan::api::parse_string`: a message and
a half-open byte range `[start, stop)` into the source text
(`error.0` is the message, `error.1.start` / `error.1.end` the offsets). -/
structure ParseError where
  message : String
  start : Nat
  stop : Nat
deriving DecidableEq, Repr

/-- `lsp_types::Position`: zero-based line and UTF-16 character, both `u32`. -/
structure LspPos where
  line : Nat
  character : Nat
deriving DecidableEq, Repr

/-- `src/main.rs` lines 84-92: build an LSP position from a tan position,
casting the `line` and `col` fields with `as u32` (wrapping). -/
def toLspPos (p : Position) : LspPos :=
  ⟨p.line % 2 ^ 32, p.col % 2 ^ 32⟩

/-- `lsp_types::Range`: start and end positions (`stop` models `end`). -/
structure LspRange where
  start : LspPos
  stop : LspPos
deriving DecidableEq, Repr

/-- `lsp_types::Diagnostic`, with exactly the fields `src/main.rs` lines
94-104 populate (all optional fields are set to `None`). -/
structure Diagnostic where
  range : LspRange
  severity : Option Nat
  code : Option String
  source : Option String
  message : String
  tags : Option (List Nat)
deriving DecidableEq, Repr

/-- `lsp_types::PublishDiagnosticsParams`: URI, diagnostics, optional version. -/
structure PublishDiagnosticsParams where
  uri : Uri
  diagnostics : List Diagnostic
  version : Option Int
deriving DecidableEq, Repr

/-- An outbound message placed on the connection's sender queue: either a
response (`id`, `result`, `error` as in `lsp_server::Response`) or a
server-to-client notification (here always `textDocument/publishDiagnostics`,
whose params we keep typed). -/
inductive OutMessage where
  | response (id : RequestId) (result : Option Json) (error : Option Json)
  | publish (method : String) (params : PublishDiagnosticsParams)

/-- An inbound notification: method name and untyped params. -/
structure NotificationMsg where
  method : String
  params : Json

/-- An inbound response (only logged by the server). -/
structure ResponseMsg where
  id : RequestId
  result : Option Json

/-- `lsp_server::Message`: the three kinds of inbound protocol messages. -/
inductive InMessage where
  | request (req : Request)
  | response (resp : ResponseMsg)
  | notif (n : NotificationMsg)

/-- The server's environment: the filesystem (path to file contents, `none`
when the read fails), the external tan parser, and the serde deserializers
for the three typed param types.  `G` and `R` are the param types of
`GotoDefinition` and `References` (their contents are never inspected). -/
structure Env (G R : Type) where
  fs : String → Option (List Char)
  parse : List Char → Except (List ParseError) Unit
  decodeGoto : Json → Except String G
  decodeRefs : Json → Except String R
  decodeDCWF : Json → Except String DidChangeWatchedFilesParams

/-- Outcome of handling one inbound message: continue the loop (with the
messages sent), return cleanly after a shutdown request, panic (malformed
params for a recognized method, `src/main.rs` lines 45 and 61), or
propagate a fatal error out of `run` (`?` on the file read, line 76;
`sent` are the messages already sent before the failure). -/
inductive StepOutcome where
  | cont (sent : List OutMessage)
  | shutdownAck (sent : List OutMessage)
  | panicked (err : ExtractErr)
  | fatal (sent : List OutMessage) (path : String)

/-- `src/main.rs` lines 79-106: the diagnostics list for one file's freshly
read text: empty when the parse succeeds, otherwise one diagnostic per
parser error, in order, pairing the error's message with the translation of
its start and end byte offsets against the same text. -/
def diagnosticsFor (parse : List Char → Except (List ParseError) Unit)
    (input : List Char) : List Diagnostic :=
  match parse input with
  | .ok _ => []
  | .error errors =>
    errors.map fun error =>
      { range := { start := toLspPos (positionOf input error.start),
                   stop := toLspPos (positionOf input error.stop) },
        severity := none, code := none, source := none,
        message := error.message, tags := none }

/-- The publish-diagnostics notification sent for one file. -/
def publishMsg (uri : Uri) (diags : List Diagnostic) : OutMessage :=
  .publish "textDocument/publishDiagnostics" ⟨uri, diags, none⟩

/-- `src/main.rs` lines 74-77 and 108-121, one loop iteration: read the file
at the path derived from the entry's URI (failure is an error propagated by
`?`), parse, build diagnostics and the notification. -/
def processOne {G R : Type} (env : Env G R) (change : FileEvent) :
    Except String OutMessage :=
  match env.fs change.uri.path with
  | none => .error change.uri.path
  | some input => .ok (publishMsg change.uri (diagnosticsFor env.parse input))

/-- The `for change in event.changes` loop: process entries in order,
collecting the notifications sent; a read failure stops the loop with the
failing path, keeping the notifications already sent. -/
def processChanges {G R : Type} (env : Env G R) :
    List FileEvent → List OutMessage × Option String
  | [] => ([], none)
  | change :: rest =>
    match processOne env change with
    | .error e => ([], some e)
    | .ok m =>
      (m :: (processChanges env rest).1, (processChanges env rest).2)

/-- `src/main.rs` lines 26-65: handle one request.  `handle_shutdown` is
modelled from the spec (the `lsp-server` crate is not part of this
repository's sources): it matches the `shutdown` method before any
extractor is tried, acknowledges with the request's identifier, and makes
the loop return.  Otherwise the request is offered to the `GotoDefinition`
extractor and then to the `References` extractor; a match answers with the
canned empty result and the request's identifier, a `JsonError` panics, and
a double mismatch falls through unanswered. -/
def handleRequest {G R : Type} (env : Env G R) (req : Request) : StepOutcome :=
  if req.method = "shutdown" then
    .shutdownAck [.response req.id (some .null) none]
  else
    match extract req "textDocument/definition" env.decodeGoto with
    | .ok (id, _p) => .cont [.response id (some (.arr [])) none]
    | .error (.jsonError m e) => .panicked (.jsonError m e)
    | .error (.methodMismatch _) =>
      match extract req "textDocument/references" env.decodeRefs with
      | .ok (id, _p) => .cont [.response id (some (.arr [])) none]
      | .error (.jsonError m e) => .panicked (.jsonError m e)
      | .error (.methodMismatch _) => .cont []

/-- `src/main.rs` lines 69-126: handle one notification.  Both a method
mismatch and a params-deserialization failure fall out of the
`if let Ok(...)` and are silently ignored; a successful extraction runs the
diagnostics pipeline over the change entries. -/
def handleNotif {G R : Type} (env : Env G R) (n : NotificationMsg) :
    StepOutcome :=
  if n.method = "workspace/didChangeWatchedFiles" then
    match env.decodeDCWF n.params with
    | .ok ps =>
      match (processChanges env ps.changes).2 with
      | none => .cont (processChanges env ps.changes).1
      | some e => .fatal (processChanges env ps.changes).1 e
    | .error _ => .cont []
  else
    .cont []

/-- `src/main.rs` lines 25-127: dispatch one inbound message by kind.
Inbound responses are only logged. -/
def handleMessage {G R : Type} (env : Env G R) : InMessage → StepOutcome
  | .request req => handleRequest env req
  | .response _ => .cont []
  | .notif n => handleNotif env n

/-- How the `run` loop ends. -/
inductive LoopResult where
  | endOfInput
  | shutdownExit
  | panicked (err : ExtractErr)
  | fatalRead (path : String)

/-- The `for msg in &connection.receiver` loop of `run`: messages are
handled one at a time; the outputs are the outbound messages in the order
sent, paired with how the loop ended (receiver exhausted, shutdown, panic,
or a fatal read error). -/
def runLoop {G R : Type} (env : Env G R) :
    List InMessage → List OutMessage × LoopResult
  | [] => ([], .endOfInput)
  | m :: rest =>
    match handleMessage env m with
    | .cont sent => (sent ++ (runLoop env rest).1, (runLoop env rest).2)
    | .shutdownAck sent => (sent, .shutdownExit)
    | .panicked e => ([], .panicked e)
    | .fatal sent p => (sent, .fatalRead p)

/-- The methods the server answers: `shutdown` plus the two registered
extractors. -/
def recognizedMethod (m : String) : Prop :=
  m = "shutdown" ∨ m = "textDocument/definition" ∨
    m = "textDocument/references"

instance (m : String) : Decidable (recognizedMethod m) := by
  unfold recognizedMethod
  infer_instance

/- ## Concrete sample data for witnesses -/

/-- A text with a multi-byte character and a surrogate-pair character
('é' is 2 UTF-8 bytes / 1 UTF-16 unit, '😀' is 4 UTF-8 bytes / 2 UTF-16
units). -/
def sampleText : List Char := ['a', '\n', 'é', '😀', 'b']

/-- A URI whose file parses with one error. -/
def badUri : Uri := ⟨"file:///ws/bad.tan", "/ws/bad.tan"⟩

/-- A URI whose file parses cleanly. -/
def goodUri : Uri := ⟨"file:///ws/good.tan", "/ws/good.tan"⟩

/-- A URI whose file cannot be read. -/
def goneUri : Uri := ⟨"file:///ws/gone.tan", "/ws/gone.tan"⟩

/-- A concrete environment: two readable files (one that parses, one with a
single parse error at bytes `[0, 5)`), request decoders that accept
anything, and a watched-files decoder that accepts exactly JSON arrays
(yielding one Deleted entry for the unreadable file). -/
def sampleEnv : Env Unit Unit :=
  ⟨fun p =>
      if p = "/ws/good.tan" then some "(+ 1 2)".data
      else if p = "/ws/bad.tan" then some "(+ 1".data
      else none,
   fun input =>
      if input = "(+ 1".data then
        .error [⟨"unexpected end of input", 0, 5⟩]
      else .ok (),
   fun _ => .ok (),
   fun _ => .ok (),
   fun j =>
      match j with
      | .arr _ => .ok ⟨[⟨goneUri, 3⟩]⟩
      | _ => .error "invalid params"⟩

/-- A concrete environment whose request-params decoders always fail. -/
def sampleEnvBad : Env Unit Unit :=
  ⟨sampleEnv.fs, sampleEnv.parse,
   fun _ => .error "missing field position",
   fun _ => .error "missing field position",
   sampleEnv.decodeDCWF⟩

/- ## Lemmas about the offset-to-position translator -/

theorem one_le_utf8Len (c : Char) : 1 ≤ utf8Len c := by
  unfold utf8Len
  split
  · exact Nat.le_refl 1
  · split
    · omega
    · split <;> omega

theorem utf8Length_cons (c : Char) (l : List Char) :
    utf8Length (c :: l) = utf8Len c + utf8Length l := by
  simp [utf8Length]

theorem utf16Length_cons (c : Char) (l : List Char) :
    utf16Length (c :: l) = utf16Len c + utf16Length l := by
  simp [utf16Length]

theorem takeWhile_append_all (p : Char → Bool) (xs ys : List Char) :
    (xs ++ ys).takeWhile p =
      if xs.all p then xs ++ ys.takeWhile p else xs.takeWhile p := by
  induction xs with
  | nil => simp
  | cons a t ih =>
    by_cases h : p a
    · simp only [List.cons_append, List.takeWhile_cons, h, ih, List.all_cons,
        Bool.true_and, if_true]
      by_cases ht : t.all p <;> simp [ht]
    · simp [List.takeWhile_cons, h]

theorem takeWhile_of_all (p : Char → Bool) (l : List Char) (h : l.all p) :
    l.takeWhile p = l := by
  induction l with
  | nil => rfl
  | cons a t ih =>
    simp only [List.all_cons, Bool.and_eq_true] at h
    simp [List.takeWhile_cons, h.1, ih h.2]

theorem newlineCount_eq_zero_iff (l : List Char) :
    newlineCount l = 0 ↔ l.all (fun c => !(isLineTerminator c)) := by
  simp only [newlineCount, List.length_eq_zero, List.filter_eq_nil_iff,
    List.all_eq_true, Bool.not_eq_true']
  exact ⟨fun h x hx => by simpa using h x hx, fun h x hx => by simp [h x hx]⟩

theorem afterLastTerm_of_no_newline (l : List Char)
    (h : newlineCount l = 0) : afterLastTerm l = l := by
  have hall : l.all (fun c => !(isLineTerminator c)) :=
    (newlineCount_eq_zero_iff l).mp h
  have hrev : l.reverse.all (fun c => !(isLineTerminator c)) := by
    simp only [List.all_eq_true] at hall ⊢
    intro x hx
    exact hall x (List.mem_reverse.mp hx)
  simp [afterLastTerm, takeWhile_of_all _ _ hrev]

theorem afterLastTerm_cons (c : Char) (p : List Char) :
    afterLastTerm (c :: p) =
      if newlineCount p = 0 then
        (if isLineTerminator c then p else c :: p)
      else afterLastTerm p := by
  unfold afterLastTerm
  rw [List.reverse_cons, takeWhile_append_all]
  by_cases hp : newlineCount p = 0
  · have hall : p.reverse.all (fun c => !(isLineTerminator c)) := by
      have := (newlineCount_eq_zero_iff p).mp hp
      simp only [List.all_eq_true] at this ⊢
      intro x hx
      exact this x (List.mem_reverse.mp hx)
    by_cases hc : isLineTerminator c
    · simp [hall, hp, hc, List.takeWhile_cons]
    · simp [hall, hp, hc, List.takeWhile_cons]
  · have hnall : p.reverse.all (fun c => !(isLineTerminator c)) = false := by
      by_contra hcon
      have : p.reverse.all (fun c => !(isLineTerminator c)) = true := by
        revert hcon
        cases p.reverse.all (fun c => !(isLineTerminator c)) <;> simp
      apply hp
      rw [newlineCount_eq_zero_iff]
      simp only [List.all_eq_true] at this ⊢
      intro x hx
      exact this x (List.mem_reverse.mpr hx)
    simp [hnall, hp]

theorem newlineCount_cons (c : Char) (p : List Char) :
    newlineCount (c :: p) =
      if isLineTerminator c then newlineCount p + 1 else newlineCount p := by
  by_cases hc : isLineTerminator c <;>
    simp [newlineCount, List.filter_cons, hc]

theorem posAux_take (text : List Char) : ∀ (k line col : Nat),
    k ≤ text.length →
    positionOfAux text (utf8Length (text.take k)) line col =
      ⟨line + newlineCount (text.take k),
       if newlineCount (text.take k) = 0 then col + utf16Length (text.take k)
       else colCount (text.take k)⟩ := by
  induction text with
  | nil =>
    intro k line col hk
    have hk0 : k = 0 := by simpa using hk
    subst hk0
    simp [positionOfAux, utf8Length, newlineCount, utf16Length]
  | cons c rest ih =>
    intro k line col hk
    cases k with
    | zero =>
      simp [positionOfAux, utf8Length, newlineCount, utf16Length]
    | succ j =>
      have hj : j ≤ rest.length := by
        simpa using Nat.le_of_succ_le_succ hk
      rw [List.take_succ_cons, utf8Length_cons]
      have h1 := one_le_utf8Len c
      obtain ⟨n, hn⟩ : ∃ n, utf8Len c + utf8Length (rest.take j) = n + 1 :=
        ⟨utf8Len c + utf8Length (rest.take j) - 1, by omega⟩
      rw [hn]
      have hsub : n + 1 - utf8Len c = utf8Length (rest.take j) := by omega
      by_cases hc : isLineTerminator c
      · rw [positionOfAux, if_pos hc, hsub, ih j (line + 1) 0 hj]
        have hnz : ¬ newlineCount (c :: rest.take j) = 0 := by
          rw [newlineCount_cons, if_pos hc]; omega
        rw [if_neg hnz]
        simp only [Position.mk.injEq]
        refine ⟨by rw [newlineCount_cons, if_pos hc]; omega, ?_⟩
        simp only [colCount, afterLastTerm_cons, hc, if_true]
        by_cases h0 : newlineCount (rest.take j) = 0
        · rw [if_pos h0, if_pos h0]
          omega
        · rw [if_neg h0, if_neg h0]
      · rw [positionOfAux, if_neg hc, hsub, ih j line (col + utf16Len c) hj]
        have hceq : newlineCount (c :: rest.take j) = newlineCount (rest.take j) := by
          rw [newlineCount_cons, if_neg hc]
        rw [hceq]
        simp only [Position.mk.injEq, true_and]
        by_cases h0 : newlineCount (rest.take j) = 0
        · rw [if_pos h0, if_pos h0, utf16Length_cons]
          omega
        · rw [if_neg h0, if_neg h0]
          simp only [colCount, afterLastTerm_cons, if_neg h0]

theorem newlineCount_take_eq_zero (text : List Char) (k : Nat)
    (h : newlineCount text = 0) : newlineCount (text.take k) = 0 := by
  rw [newlineCount_eq_zero_iff] at h ⊢
  simp only [List.all_eq_true] at h ⊢
  intro x hx
  exact h x (List.take_subset k text hx)

/-- C1: for every text and every valid boundary byte offset (the UTF-8
length of a prefix of `k ≤ length` characters), the offset-to-position
translation yields a line equal to the number of line terminators strictly
before the offset and a column equal to the number of UTF-16 code units
between the start of the line containing the offset and the offset itself;
for a text with no line terminators the line is always 0. -/
theorem offset_to_position_correct (text : List Char) (k : Nat)
    (hk : k ≤ text.length) :
    positionOf text (utf8Length (text.take k)) =
      ⟨newlineCount (text.take k), colCount (text.take k)⟩ ∧
    (newlineCount text = 0 →
      (positionOf text (utf8Length (text.take k))).line = 0) := by
  have hmain : positionOf text (utf8Length (text.take k)) =
      ⟨newlineCount (text.take k), colCount (text.take k)⟩ := by
    unfold positionOf
    rw [posAux_take text k 0 0 hk]
    by_cases h0 : newlineCount (text.take k) = 0
    · rw [if_pos h0, colCount, afterLastTerm_of_no_newline _ h0]
      simp
    · rw [if_neg h0]
      simp
  refine ⟨hmain, fun hz => ?_⟩
  rw [hmain]
  exact newlineCount_take_eq_zero text k hz

/-- Witness for C1 at the concrete multiline text `sampleText` and the
boundary offset after its fourth character (byte offset 8, line 1,
column 3 = one UTF-16 unit for 'é' plus two for '😀'). -/
theorem offset_to_position_correct_witness :
    positionOf sampleText (utf8Length (sampleText.take 4)) =
      ⟨newlineCount (sampleText.take 4), colCount (sampleText.take 4)⟩ ∧
    (newlineCount sampleText = 0 →
      (positionOf sampleText (utf8Length (sampleText.take 4))).line = 0) :=
  offset_to_position_correct sampleText 4 (by decide)

/- ## Lemmas about the typed extractor -/

theorem extract_ok_of_match {P : Type} (req : Request) (method : String)
    (decode : Json → Except String P) (p : P)
    (hm : req.method = method) (hd : decode req.params = .ok p) :
    extract req method decode = .ok (req.id, p) := by
  simp [extract, hm, hd]

theorem extract_jsonError_of_match {P : Type} (req : Request)
    (method : String) (decode : Json → Except String P) (e : String)
    (hm : req.method = method) (hd : decode req.params = .error e) :
    extract req method decode = .error (.jsonError req.method e) := by
  simp [extract, hm, hd]

theorem extract_mismatch {P : Type} (req : Request) (method : String)
    (decode : Json → Except String P) (hm : ¬ req.method = method) :
    extract req method decode = .error (.methodMismatch req) := by
  simp [extract, hm]

/-- C7: when the request's method differs from the extractor's expected
method, extraction returns a `methodMismatch` carrying the original request
unchanged; and, for every call, exactly one of the three outcomes
(`Matched`, `MethodMismatch`, `MalformedParams`) is produced: at least one
holds, and no two hold simultaneously. -/
theorem try_extract_lossless {P : Type} (req : Request) (method : String)
    (decode : Json → Except String P) :
    (¬ req.method = method →
      extract req method decode = .error (.methodMismatch req)) ∧
    ((∃ p, extract req method decode = .ok (req.id, p)) ∨
     extract req method decode = .error (.methodMismatch req) ∨
     (∃ e, extract req method decode = .error (.jsonError req.method e))) ∧
    ¬ ((∃ p, extract req method decode = .ok (req.id, p)) ∧
       extract req method decode = .error (.methodMismatch req)) ∧
    ¬ ((∃ p, extract req method decode = .ok (req.id, p)) ∧
       (∃ e, extract req method decode = .error (.jsonError req.method e))) ∧
    ¬ (extract req method decode = .error (.methodMismatch req) ∧
       (∃ e, extract req method decode = .error (.jsonError req.method e))) := by
  by_cases hm : req.method = method
  · cases hd : decode req.params with
    | ok p =>
      have he := extract_ok_of_match req method decode p hm hd
      refine ⟨fun h => absurd hm h, .inl ⟨p, he⟩, ?_, ?_, ?_⟩
      · rintro ⟨-, hb⟩
        rw [he] at hb
        simp at hb
      · rintro ⟨-, ⟨e, hc⟩⟩
        rw [he] at hc
        simp at hc
      · rintro ⟨hb, -⟩
        rw [he] at hb
        simp at hb
    | error e =>
      have he := extract_jsonError_of_match req method decode e hm hd
      refine ⟨fun h => absurd hm h, .inr (.inr ⟨e, he⟩), ?_, ?_, ?_⟩
      · rintro ⟨⟨q, hq⟩, -⟩
        rw [he] at hq
        simp at hq
      · rintro ⟨⟨q, hq⟩, -⟩
        rw [he] at hq
        simp at hq
      · rintro ⟨hb, -⟩
        rw [he] at hb
        simp at hb
  · have he := extract_mismatch req method decode hm
    refine ⟨fun _ => he, .inr (.inl he), ?_, ?_, ?_⟩
    · rintro ⟨⟨q, hq⟩, -⟩
      rw [he] at hq
      simp at hq
    · rintro ⟨⟨q, hq⟩, -⟩
      rw [he] at hq
      simp at hq
    · rintro ⟨-, ⟨e, hc⟩⟩
      rw [he] at hc
      simp at hc

/-- Witness for C7: the extractor for `textDocument/definition` applied to
a request for method `foo/bar` (with the always-succeeding decoder of
`sampleEnv`). -/
theorem try_extract_lossless_witness :
    (¬ (Request.mk (.num 1) "foo/bar" .null).method = "textDocument/definition" →
      extract ⟨.num 1, "foo/bar", .null⟩ "textDocument/definition" sampleEnv.decodeGoto =
        .error (.methodMismatch ⟨.num 1, "foo/bar", .null⟩)) ∧
    ((∃ p, extract ⟨.num 1, "foo/bar", .null⟩ "textDocument/definition" sampleEnv.decodeGoto =
        .ok ((Request.mk (.num 1) "foo/bar" .null).id, p)) ∨
     extract ⟨.num 1, "foo/bar", .null⟩ "textDocument/definition" sampleEnv.decodeGoto =
        .error (.methodMismatch ⟨.num 1, "foo/bar", .null⟩) ∨
     (∃ e, extract ⟨.num 1, "foo/bar", .null⟩ "textDocument/definition" sampleEnv.decodeGoto =
        .error (.jsonError (Request.mk (.num 1) "foo/bar" .null).method e))) ∧
    ¬ ((∃ p, extract ⟨.num 1, "foo/bar", .null⟩ "textDocument/definition" sampleEnv.decodeGoto =
        .ok ((Request.mk (.num 1) "foo/bar" .null).id, p)) ∧
       extract ⟨.num 1, "foo/bar", .null⟩ "textDocument/definition" sampleEnv.decodeGoto =
        .error (.methodMismatch ⟨.num 1, "foo/bar", .null⟩)) ∧
    ¬ ((∃ p, extract ⟨.num 1, "foo/bar", .null⟩ "textDocument/definition" sampleEnv.decodeGoto =
        .ok ((Request.mk (.num 1) "foo/bar" .null).id, p)) ∧
       (∃ e, extract ⟨.num 1, "foo/bar", .null⟩ "textDocument/definition" sampleEnv.decodeGoto =
        .error (.jsonError (Request.mk (.num 1) "foo/bar" .null).method e))) ∧
    ¬ (extract ⟨.num 1, "foo/bar", .null⟩ "textDocument/definition" sampleEnv.decodeGoto =
        .error (.methodMismatch ⟨.num 1, "foo/bar", .null⟩) ∧
       (∃ e, extract ⟨.num 1, "foo/bar", .null⟩ "textDocument/definition" sampleEnv.decodeGoto =
        .error (.jsonError (Request.mk (.num 1) "foo/bar" .null).method e))) :=
  try_extract_lossless ⟨.num 1, "foo/bar", .null⟩ "textDocument/definition"
    sampleEnv.decodeGoto

/- ## Claims about request dispatch -/

/-- C3: a recognized-method request (`textDocument/definition` or
`textDocument/references`) whose parameters deserialize successfully is
answered by exactly the response carrying the request's own identifier
(with the canned empty-array result). -/
theorem response_id_matches_request {G R : Type} (env : Env G R)
    (req : Request) :
    (∀ p : G, req.method = "textDocument/definition" →
      env.decodeGoto req.params = .ok p →
      handleRequest env req =
        .cont [.response req.id (some (.arr [])) none]) ∧
    (∀ p : R, req.method = "textDocument/references" →
      env.decodeRefs req.params = .ok p →
      handleRequest env req =
        .cont [.response req.id (some (.arr [])) none]) := by
  constructor
  · intro p hm hd
    have hns : ¬ req.method = "shutdown" := by rw [hm]; decide
    rw [handleRequest, if_neg hns,
      extract_ok_of_match req _ env.decodeGoto p hm hd]
  · intro p hm hd
    have hns : ¬ req.method = "shutdown" := by rw [hm]; decide
    have hnd : ¬ req.method = "textDocument/definition" := by rw [hm]; decide
    rw [handleRequest, if_neg hns, extract_mismatch req _ env.decodeGoto hnd,
      extract_ok_of_match req _ env.decodeRefs p hm hd]

/-- Witness for C3: a concrete `textDocument/definition` request against
`sampleEnv` is answered with its own identifier. -/
theorem response_id_matches_request_witness :
    (∀ p : Unit,
      (Request.mk (.num 7) "textDocument/definition" .null).method =
        "textDocument/definition" →
      sampleEnv.decodeGoto (Request.mk (.num 7) "textDocument/definition" .null).params =
        .ok p →
      handleRequest sampleEnv ⟨.num 7, "textDocument/definition", .null⟩ =
        .cont [.response (Request.mk (.num 7) "textDocument/definition" .null).id
          (some (.arr [])) none]) ∧
    (∀ p : Unit,
      (Request.mk (.num 7) "textDocument/definition" .null).method =
        "textDocument/references" →
      sampleEnv.decodeRefs (Request.mk (.num 7) "textDocument/definition" .null).params =
        .ok p →
      handleRequest sampleEnv ⟨.num 7, "textDocument/definition", .null⟩ =
        .cont [.response (Request.mk (.num 7) "textDocument/definition" .null).id
          (some (.arr [])) none]) :=
  response_id_matches_request sampleEnv ⟨.num 7, "textDocument/definition", .null⟩

/-- C4: malformed parameters for a recognized method are fatal: the handler
panics (no extractor is tried afterwards), and the loop aborts the whole
process sending nothing for that request, regardless of the messages still
queued. -/
theorem malformed_params_fatal {G R : Type} (env : Env G R) (req : Request)
    (rest : List InMessage) :
    (∀ e, req.method = "textDocument/definition" →
      env.decodeGoto req.params = .error e →
      handleRequest env req = .panicked (.jsonError req.method e) ∧
      runLoop env (.request req :: rest) =
        ([], .panicked (.jsonError req.method e))) ∧
    (∀ e, req.method = "textDocument/references" →
      env.decodeRefs req.params = .error e →
      handleRequest env req = .panicked (.jsonError req.method e) ∧
      runLoop env (.request req :: rest) =
        ([], .panicked (.jsonError req.method e))) := by
  constructor
  · intro e hm hd
    have hns : ¬ req.method = "shutdown" := by rw [hm]; decide
    have h1 : handleRequest env req = .panicked (.jsonError req.method e) := by
      rw [handleRequest, if_neg hns,
        extract_jsonError_of_match req _ env.decodeGoto e hm hd]
    exact ⟨h1, by rw [runLoop, handleMessage, h1]⟩
  · intro e hm hd
    have hns : ¬ req.method = "shutdown" := by rw [hm]; decide
    have hnd : ¬ req.method = "textDocument/definition" := by rw [hm]; decide
    have h1 : handleRequest env req = .panicked (.jsonError req.method e) := by
      rw [handleRequest, if_neg hns, extract_mismatch req _ env.decodeGoto hnd,
        extract_jsonError_of_match req _ env.decodeRefs e hm hd]
    exact ⟨h1, by rw [runLoop, handleMessage, h1]⟩

/-- Witness for C4: a `textDocument/definition` request whose params fail
to decode in `sampleEnvBad` panics and aborts the loop even with a request
still queued. -/
theorem malformed_params_fatal_witness :
    (∀ e, (Request.mk (.num 2) "textDocument/definition" .null).method =
        "textDocument/definition" →
      sampleEnvBad.decodeGoto (Request.mk (.num 2) "textDocument/definition" .null).params =
        .error e →
      handleRequest sampleEnvBad ⟨.num 2, "textDocument/definition", .null⟩ =
        .panicked (.jsonError (Request.mk (.num 2) "textDocument/definition" .null).method e) ∧
      runLoop sampleEnvBad
        (.request ⟨.num 2, "textDocument/definition", .null⟩ ::
          [.request ⟨.num 3, "shutdown", .null⟩]) =
        ([], .panicked (.jsonError (Request.mk (.num 2) "textDocument/definition" .null).method e))) ∧
    (∀ e, (Request.mk (.num 2) "textDocument/definition" .null).method =
        "textDocument/references" →
      sampleEnvBad.decodeRefs (Request.mk (.num 2) "textDocument/definition" .null).params =
        .error e →
      handleRequest sampleEnvBad ⟨.num 2, "textDocument/definition", .null⟩ =
        .panicked (.jsonError (Request.mk (.num 2) "textDocument/definition" .null).method e) ∧
      runLoop sampleEnvBad
        (.request ⟨.num 2, "textDocument/definition", .null⟩ ::
          [.request ⟨.num 3, "shutdown", .null⟩]) =
        ([], .panicked (.jsonError (Request.mk (.num 2) "textDocument/definition" .null).method e))) :=
  malformed_params_fatal sampleEnvBad ⟨.num 2, "textDocument/definition", .null⟩
    [.request ⟨.num 3, "shutdown", .null⟩]

/-- C8: the shutdown check runs before any extractor is tried (the result
does not depend on the environment's decoders, which are universally
quantified here): a `shutdown` request is acknowledged with its own
identifier and the loop returns at once, dispatching none of the queued
messages. -/
theorem shutdown_terminates_loop {G R : Type} (env : Env G R)
    (req : Request) (rest : List InMessage) (hs : req.method = "shutdown") :
    handleRequest env req =
      .shutdownAck [.response req.id (some .null) none] ∧
    runLoop env (.request req :: rest) =
      ([.response req.id (some .null) none], .shutdownExit) := by
  have h1 : handleRequest env req =
      .shutdownAck [.response req.id (some .null) none] := by
    rw [handleRequest, if_pos hs]
  exact ⟨h1, by rw [runLoop, handleMessage, h1]⟩

/-- Witness for C8: a concrete shutdown request terminates the loop with
only its acknowledgment, even with another request queued behind it. -/
theorem shutdown_terminates_loop_witness :
    handleRequest sampleEnv ⟨.num 9, "shutdown", .null⟩ =
      .shutdownAck [.response (Request.mk (.num 9) "shutdown" .null).id (some .null) none] ∧
    runLoop sampleEnv
      (.request ⟨.num 9, "shutdown", .null⟩ ::
        [.request ⟨.num 10, "textDocument/definition", .null⟩]) =
      ([.response (Request.mk (.num 9) "shutdown" .null).id (some .null) none],
        .shutdownExit) :=
  shutdown_terminates_loop sampleEnv ⟨.num 9, "shutdown", .null⟩
    [.request ⟨.num 10, "textDocument/definition", .null⟩] rfl

/- ## Lemmas about the diagnostics pipeline -/

theorem processOne_ok {G R : Type} (env : Env G R) (c : FileEvent)
    (m : OutMessage) (h : processOne env c = .ok m) :
    ∃ input, env.fs c.uri.path = some input ∧
      m = publishMsg c.uri (diagnosticsFor env.parse input) := by
  cases hfs : env.fs c.uri.path with
  | none => simp [processOne, hfs] at h
  | some input =>
    simp only [processOne, hfs, Except.ok.injEq] at h
    exact ⟨input, rfl, h.symm⟩

theorem processChanges_all_ok {G R : Type} (env : Env G R)
    (changes : List FileEvent)
    (h : ∀ c ∈ changes, (env.fs c.uri.path).isSome) :
    processChanges env changes =
      (changes.map fun c =>
        publishMsg c.uri (diagnosticsFor env.parse ((env.fs c.uri.path).getD [])),
       none) := by
  induction changes with
  | nil => rfl
  | cons c rest ih =>
    have hc : (env.fs c.uri.path).isSome := h c (by simp)
    cases hfs : env.fs c.uri.path with
    | none => rw [hfs] at hc; simp at hc
    | some input =>
      have hrest : ∀ x ∈ rest, (env.fs x.uri.path).isSome :=
        fun x hx => h x (by simp [hx])
      simp [processChanges, processOne, hfs, ih hrest]

theorem processChanges_fail {G R : Type} (env : Env G R) :
    ∀ (pre : List FileEvent) (bad : FileEvent) (post : List FileEvent),
    (∀ c ∈ pre, (env.fs c.uri.path).isSome) →
    env.fs bad.uri.path = none →
    processChanges env (pre ++ bad :: post) =
      (pre.map fun c =>
        publishMsg c.uri (diagnosticsFor env.parse ((env.fs c.uri.path).getD [])),
       some bad.uri.path) := by
  intro pre
  induction pre with
  | nil =>
    intro bad post hpre hbad
    simp [processChanges, processOne, hbad]
  | cons c rest ih =>
    intro bad post hpre hbad
    have hc : (env.fs c.uri.path).isSome := hpre c (by simp)
    cases hfs : env.fs c.uri.path with
    | none => rw [hfs] at hc; simp at hc
    | some input =>
      have hrest : ∀ x ∈ rest, (env.fs x.uri.path).isSome :=
        fun x hx => hpre x (by simp [hx])
      simp [processChanges, processOne, hfs, ih bad post hrest hbad]

/-- C2: for every change-set whose files are all readable, the pipeline
sends exactly one publish-diagnostics notification per entry, in order,
carrying the entry's own URI and no version stamp; the diagnostics list is
built one-to-one from the parser's errors in reporting order, pairing each
error's message with the translation of its start and end byte offsets
against the text just read; and (given the parser contract that an error
result is a non-empty list) the list is empty exactly when the parse
succeeded. -/
theorem publish_per_changed_file {G R : Type} (env : Env G R)
    (changes : List FileEvent)
    (hread : ∀ c ∈ changes, (env.fs c.uri.path).isSome)
    (hne : ∀ input es, env.parse input = .error es → es ≠ []) :
    processChanges env changes =
      (changes.map fun c =>
        publishMsg c.uri (diagnosticsFor env.parse ((env.fs c.uri.path).getD [])),
       none) ∧
    (∀ input es, env.parse input = .error es →
      (diagnosticsFor env.parse input).length = es.length ∧
      ∀ i (hi : i < es.length),
        (diagnosticsFor env.parse input)[i]? =
          some ⟨⟨toLspPos (positionOf input es[i].start),
                 toLspPos (positionOf input es[i].stop)⟩,
                none, none, none, es[i].message, none⟩) ∧
    (∀ input,
      diagnosticsFor env.parse input = [] ↔ env.parse input = .ok ()) := by
  refine ⟨processChanges_all_ok env changes hread, ?_, ?_⟩
  · intro input es hp
    refine ⟨by simp [diagnosticsFor, hp], ?_⟩
    intro i hi
    simp [diagnosticsFor, hp, List.getElem?_map, List.getElem?_eq_getElem hi]
  · intro input
    cases hp : env.parse input with
    | ok u =>
      cases u
      simp [diagnosticsFor, hp]
    | error es =>
      have hn := hne input es hp
      simp [diagnosticsFor, hp, hn]

/-- Witness for C2: the change-set touching the erroneous and the clean
file of `sampleEnv`; the single error of the erroneous file at bytes
`[0, 5)` maps to a diagnostic at (0,0)-(0,5) with the message unchanged,
and the clean file's list is empty exactly because its parse succeeds. -/
theorem publish_per_changed_file_witness :
    processChanges sampleEnv [⟨badUri, 2⟩, ⟨goodUri, 1⟩] =
      (([⟨badUri, 2⟩, ⟨goodUri, 1⟩] : List FileEvent).map fun c =>
        publishMsg c.uri
          (diagnosticsFor sampleEnv.parse ((sampleEnv.fs c.uri.path).getD [])),
       none) ∧
    (diagnosticsFor sampleEnv.parse "(+ 1".data).length =
      [ParseError.mk "unexpected end of input" 0 5].length ∧
    (diagnosticsFor sampleEnv.parse "(+ 1".data)[0]? =
      some ⟨⟨toLspPos (positionOf "(+ 1".data 0),
             toLspPos (positionOf "(+ 1".data 5)⟩,
            none, none, none, "unexpected end of input", none⟩ ∧
    (diagnosticsFor sampleEnv.parse "(+ 1 2)".data = [] ↔
      sampleEnv.parse "(+ 1 2)".data = .ok ()) := by
  have hne : ∀ input es, sampleEnv.parse input = .error es → es ≠ [] := by
    intro input es h
    dsimp only [sampleEnv] at h
    by_cases hi : input = "(+ 1".data
    · rw [if_pos hi] at h
      injection h with h2
      rw [← h2]
      simp
    · rw [if_neg hi] at h
      simp at h
  have h := publish_per_changed_file sampleEnv [⟨badUri, 2⟩, ⟨goodUri, 1⟩]
    (by decide) hne
  have herr : sampleEnv.parse "(+ 1".data =
      .error [⟨"unexpected end of input", 0, 5⟩] := rfl
  have h2 := h.2.1 "(+ 1".data [⟨"unexpected end of input", 0, 5⟩] herr
  exact ⟨h.1, h2.1, h2.2 0 (by decide), h.2.2 "(+ 1 2)".data⟩

/-- C5: a read failure on any entry of a change-set is fatal to the whole
server loop: the entries before it each produce their notification, the
failing entry and every later entry produce none, and the loop terminates
with the read error regardless of the messages still queued. -/
theorem read_failure_kills_server {G R : Type} (env : Env G R)
    (pre : List FileEvent) (bad : FileEvent) (post : List FileEvent)
    (n : NotificationMsg) (rest : List InMessage)
    (hpre : ∀ c ∈ pre, (env.fs c.uri.path).isSome)
    (hbad : env.fs bad.uri.path = none)
    (hm : n.method = "workspace/didChangeWatchedFiles")
    (hd : env.decodeDCWF n.params = .ok ⟨pre ++ bad :: post⟩) :
    processChanges env (pre ++ bad :: post) =
      (pre.map fun c =>
        publishMsg c.uri (diagnosticsFor env.parse ((env.fs c.uri.path).getD [])),
       some bad.uri.path) ∧
    runLoop env (.notif n :: rest) =
      (pre.map fun c =>
        publishMsg c.uri (diagnosticsFor env.parse ((env.fs c.uri.path).getD [])),
       .fatalRead bad.uri.path) := by
  have h1 := processChanges_fail env pre bad post hpre hbad
  have h2 : handleNotif env n =
      .fatal (pre.map fun c =>
        publishMsg c.uri (diagnosticsFor env.parse ((env.fs c.uri.path).getD [])))
        bad.uri.path := by
    simp only [handleNotif, if_pos hm, hd, h1]
  exact ⟨h1, by rw [runLoop, handleMessage, h2]⟩

/-- Witness for C5: a change-set naming only the unreadable file of
`sampleEnv` terminates the loop with the read error and sends nothing,
even with a request still queued. -/
theorem read_failure_kills_server_witness :
    processChanges sampleEnv ([] ++ FileEvent.mk goneUri 3 :: []) =
      (([] : List FileEvent).map (fun c =>
        publishMsg c.uri
          (diagnosticsFor sampleEnv.parse ((sampleEnv.fs c.uri.path).getD []))),
       some (FileEvent.mk goneUri 3).uri.path) ∧
    runLoop sampleEnv
      (.notif ⟨"workspace/didChangeWatchedFiles", .arr []⟩ ::
        [.request ⟨.num 4, "shutdown", .null⟩]) =
      (([] : List FileEvent).map (fun c =>
        publishMsg c.uri
          (diagnosticsFor sampleEnv.parse ((sampleEnv.fs c.uri.path).getD []))),
       .fatalRead (FileEvent.mk goneUri 3).uri.path) :=
  read_failure_kills_server sampleEnv [] ⟨goneUri, 3⟩ []
    ⟨"workspace/didChangeWatchedFiles", .arr []⟩
    [.request ⟨.num 4, "shutdown", .null⟩]
    (by simp) rfl rfl rfl

/-- C9: the pipeline never inspects the change-kind field: processing an
entry gives identical results for any two kinds at the same URI; and a
Deleted entry (kind 3) still attempts the read, so when the file no longer
exists the loop terminates fatally. -/
theorem change_kind_irrelevant {G R : Type} (env : Env G R) (uri : Uri)
    (t1 t2 : Nat) (evrest : List FileEvent) (n : NotificationMsg)
    (rest : List InMessage) :
    processOne env ⟨uri, t1⟩ = processOne env ⟨uri, t2⟩ ∧
    (env.fs uri.path = none →
      processChanges env (⟨uri, t1⟩ :: evrest) = ([], some uri.path) ∧
      (n.method = "workspace/didChangeWatchedFiles" →
        env.decodeDCWF n.params = .ok ⟨⟨uri, 3⟩ :: evrest⟩ →
        runLoop env (.notif n :: rest) = ([], .fatalRead uri.path))) := by
  refine ⟨rfl, fun hnone => ⟨?_, fun hm hd => ?_⟩⟩
  · simp [processChanges, processOne, hnone]
  · have h1 := processChanges_fail env [] ⟨uri, 3⟩ evrest (by simp) hnone
    simp only [List.nil_append, List.map_nil] at h1
    have h2 : handleNotif env n = .fatal [] uri.path := by
      simp only [handleNotif, if_pos hm, hd, h1]
    rw [runLoop, handleMessage, h2]

/-- Witness for C9: the unreadable `goneUri` at kinds 1 and 3. -/
theorem change_kind_irrelevant_witness :
    processOne sampleEnv ⟨goneUri, 1⟩ = processOne sampleEnv ⟨goneUri, 3⟩ ∧
    (sampleEnv.fs goneUri.path = none →
      processChanges sampleEnv (⟨goneUri, 1⟩ :: []) =
        ([], some goneUri.path) ∧
      ((NotificationMsg.mk "workspace/didChangeWatchedFiles" (.arr [])).method =
          "workspace/didChangeWatchedFiles" →
        sampleEnv.decodeDCWF
            (NotificationMsg.mk "workspace/didChangeWatchedFiles" (.arr [])).params =
          .ok ⟨⟨goneUri, 3⟩ :: []⟩ →
        runLoop sampleEnv
          (.notif ⟨"workspace/didChangeWatchedFiles", .arr []⟩ :: []) =
          ([], .fatalRead goneUri.path))) :=
  change_kind_irrelevant sampleEnv goneUri 1 3 []
    ⟨"workspace/didChangeWatchedFiles", .arr []⟩ []

/-- C10: an inbound notification whose params fail to deserialize for the
`workspace/didChangeWatchedFiles` method, or whose method is anything else,
is silently ignored: nothing is sent, nothing aborts, and the loop
continues exactly as if the notification had not arrived. -/
theorem notification_errors_ignored {G R : Type} (env : Env G R)
    (n : NotificationMsg) (rest : List InMessage) :
    (∀ e, n.method = "workspace/didChangeWatchedFiles" →
      env.decodeDCWF n.params = .error e →
      handleMessage env (.notif n) = .cont [] ∧
      runLoop env (.notif n :: rest) = runLoop env rest) ∧
    (¬ n.method = "workspace/didChangeWatchedFiles" →
      handleMessage env (.notif n) = .cont [] ∧
      runLoop env (.notif n :: rest) = runLoop env rest) := by
  constructor
  · intro e hm hd
    have h1 : handleMessage env (.notif n) = .cont [] := by
      simp only [handleMessage, handleNotif, if_pos hm, hd]
    refine ⟨h1, ?_⟩
    rw [runLoop, h1]
    simp
  · intro hm
    have h1 : handleMessage env (.notif n) = .cont [] := by
      simp only [handleMessage, handleNotif, if_neg hm]
    refine ⟨h1, ?_⟩
    rw [runLoop, h1]
    simp

/-- Witness for C10: a `workspace/didChangeWatchedFiles` notification whose
params are not an array fails to decode in `sampleEnv` and is ignored with
a shutdown request still queued. -/
theorem notification_errors_ignored_witness :
    (∀ e, (NotificationMsg.mk "workspace/didChangeWatchedFiles" .null).method =
        "workspace/didChangeWatchedFiles" →
      sampleEnv.decodeDCWF
          (NotificationMsg.mk "workspace/didChangeWatchedFiles" .null).params =
        .error e →
      handleMessage sampleEnv
        (.notif ⟨"workspace/didChangeWatchedFiles", .null⟩) = .cont [] ∧
      runLoop sampleEnv
        (.notif ⟨"workspace/didChangeWatchedFiles", .null⟩ ::
          [.request ⟨.num 4, "shutdown", .null⟩]) =
        runLoop sampleEnv [.request ⟨.num 4, "shutdown", .null⟩]) ∧
    (¬ (NotificationMsg.mk "workspace/didChangeWatchedFiles" .null).method =
        "workspace/didChangeWatchedFiles" →
      handleMessage sampleEnv
        (.notif ⟨"workspace/didChangeWatchedFiles", .null⟩) = .cont [] ∧
      runLoop sampleEnv
        (.notif ⟨"workspace/didChangeWatchedFiles", .null⟩ ::
          [.request ⟨.num 4, "shutdown", .null⟩]) =
        runLoop sampleEnv [.request ⟨.num 4, "shutdown", .null⟩]) :=
  notification_errors_ignored sampleEnv
    ⟨"workspace/didChangeWatchedFiles", .null⟩
    [.request ⟨.num 4, "shutdown", .null⟩]

/- ## Lemmas about the whole loop, and C6 -/

theorem handleRequest_cases {G R : Type} (env : Env G R) (req : Request) :
    (req.method = "shutdown" ∧
      handleRequest env req =
        .shutdownAck [.response req.id (some .null) none]) ∨
    (recognizedMethod req.method ∧ ∃ res,
      handleRequest env req = .cont [.response req.id (some res) none]) ∨
    (recognizedMethod req.method ∧ ∃ e,
      handleRequest env req = .panicked e) ∨
    handleRequest env req = .cont [] := by
  by_cases hs : req.method = "shutdown"
  · exact .inl ⟨hs, by rw [handleRequest, if_pos hs]⟩
  · by_cases hd : req.method = "textDocument/definition"
    · cases hg : env.decodeGoto req.params with
      | ok p =>
        refine .inr (.inl ⟨.inr (.inl hd), .arr [], ?_⟩)
        rw [handleRequest, if_neg hs,
          extract_ok_of_match req _ env.decodeGoto p hd hg]
      | error e =>
        refine .inr (.inr (.inl ⟨.inr (.inl hd), .jsonError req.method e, ?_⟩))
        rw [handleRequest, if_neg hs,
          extract_jsonError_of_match req _ env.decodeGoto e hd hg]
    · by_cases hr : req.method = "textDocument/references"
      · cases hg : env.decodeRefs req.params with
        | ok p =>
          refine .inr (.inl ⟨.inr (.inr hr), .arr [], ?_⟩)
          rw [handleRequest, if_neg hs, extract_mismatch req _ env.decodeGoto hd,
            extract_ok_of_match req _ env.decodeRefs p hr hg]
        | error e =>
          refine .inr (.inr (.inl ⟨.inr (.inr hr), .jsonError req.method e, ?_⟩))
          rw [handleRequest, if_neg hs, extract_mismatch req _ env.decodeGoto hd,
            extract_jsonError_of_match req _ env.decodeRefs e hr hg]
      · refine .inr (.inr (.inr ?_))
        rw [handleRequest, if_neg hs, extract_mismatch req _ env.decodeGoto hd,
          extract_mismatch req _ env.decodeRefs hr]

theorem handleNotif_cases {G R : Type} (env : Env G R) (n : NotificationMsg) :
    handleNotif env n = .cont [] ∨
    (∃ ps : DidChangeWatchedFilesParams,
      handleNotif env n = .cont (processChanges env ps.changes).1) ∨
    (∃ (ps : DidChangeWatchedFilesParams) (e : String),
      handleNotif env n = .fatal (processChanges env ps.changes).1 e) := by
  by_cases hm : n.method = "workspace/didChangeWatchedFiles"
  · cases hd : env.decodeDCWF n.params with
    | error e => exact .inl (by simp only [handleNotif, if_pos hm, hd])
    | ok ps =>
      cases h2 : (processChanges env ps.changes).2 with
      | none =>
        exact .inr (.inl ⟨ps, by simp only [handleNotif, if_pos hm, hd, h2]⟩)
      | some e =>
        exact .inr (.inr ⟨ps, e,
          by simp only [handleNotif, if_pos hm, hd, h2]⟩)
  · exact .inl (by simp only [handleNotif, if_neg hm])

theorem processChanges_only_publish {G R : Type} (env : Env G R) :
    ∀ (changes : List FileEvent) (i : RequestId) (res err : Option Json),
      OutMessage.response i res err ∉ (processChanges env changes).1 := by
  intro changes
  induction changes with
  | nil => intro i res err h; simp [processChanges] at h
  | cons c rest ih =>
    intro i res err h
    cases hp : processOne env c with
    | error e => simp [processChanges, hp] at h
    | ok m =>
      simp only [processChanges, hp, List.mem_cons] at h
      rcases h with h | h
      · rcases processOne_ok env c m hp with ⟨input, -, hm⟩
        rw [hm] at h
        simp [publishMsg] at h
      · exact ih i res err h

theorem runLoop_response_ids {G R : Type} (env : Env G R) :
    ∀ (msgs : List InMessage) (i : RequestId) (res err : Option Json),
      OutMessage.response i res err ∈ (runLoop env msgs).1 →
      ∃ req, InMessage.request req ∈ msgs ∧ req.id = i ∧
        recognizedMethod req.method := by
  intro msgs
  induction msgs with
  | nil => intro i res err h; simp [runLoop] at h
  | cons m rest ih =>
    intro i res err h
    cases m with
    | request req =>
      rw [runLoop, handleMessage] at h
      rcases handleRequest_cases env req with
        ⟨hs, he⟩ | ⟨hr, res', he⟩ | ⟨hr, e, he⟩ | he
      · rw [he] at h
        simp only [List.mem_singleton, OutMessage.response.injEq] at h
        exact ⟨req, by simp, h.1.symm, .inl hs⟩
      · rw [he] at h
        simp only [List.cons_append, List.nil_append, List.mem_cons,
          OutMessage.response.injEq] at h
        rcases h with h | h
        · exact ⟨req, by simp, h.1.symm, hr⟩
        · rcases ih i res err h with ⟨q, hq, hqi, hqr⟩
          exact ⟨q, List.mem_cons_of_mem _ hq, hqi, hqr⟩
      · rw [he] at h
        simp at h
      · rw [he] at h
        simp only [List.nil_append] at h
        rcases ih i res err h with ⟨q, hq, hqi, hqr⟩
        exact ⟨q, List.mem_cons_of_mem _ hq, hqi, hqr⟩
    | response r =>
      rw [runLoop, handleMessage] at h
      simp only [List.nil_append] at h
      rcases ih i res err h with ⟨q, hq, hqi, hqr⟩
      exact ⟨q, List.mem_cons_of_mem _ hq, hqi, hqr⟩
    | notif n =>
      rw [runLoop, handleMessage] at h
      rcases handleNotif_cases env n with he | ⟨ps, he⟩ | ⟨ps, e, he⟩
      · rw [he] at h
        simp only [List.nil_append] at h
        rcases ih i res err h with ⟨q, hq, hqi, hqr⟩
        exact ⟨q, List.mem_cons_of_mem _ hq, hqi, hqr⟩
      · rw [he] at h
        simp only [List.mem_append] at h
        rcases h with h | h
        · exact absurd h (processChanges_only_publish env ps.changes i res err)
        · rcases ih i res err h with ⟨q, hq, hqi, hqr⟩
          exact ⟨q, List.mem_cons_of_mem _ hq, hqi, hqr⟩
      · rw [he] at h
        exact absurd h (processChanges_only_publish env ps.changes i res err)

/-- C6: a request for a method outside {`shutdown`,
`textDocument/definition`, `textDocument/references`} is a silent no-op:
nothing is sent for it, the loop goes on exactly as if the request had not
arrived, and — as long as no later recognized-method request reuses its
identifier — no response carrying its identifier is ever sent. -/
theorem unrecognized_request_silent {G R : Type} (env : Env G R)
    (req : Request) (rest : List InMessage)
    (hm : ¬ recognizedMethod req.method)
    (hid : ∀ q : Request, InMessage.request q ∈ rest →
      recognizedMethod q.method → ¬ q.id = req.id) :
    handleMessage env (.request req) = .cont [] ∧
    runLoop env (.request req :: rest) = runLoop env rest ∧
    (∀ res err, OutMessage.response req.id res err ∉
      (runLoop env (.request req :: rest)).1) := by
  have h1 : handleRequest env req = .cont [] := by
    rcases handleRequest_cases env req with
      ⟨hs, -⟩ | ⟨hr, -⟩ | ⟨hr, -⟩ | he
    · exact absurd (.inl hs) hm
    · exact absurd hr hm
    · exact absurd hr hm
    · exact he
  have h2 : runLoop env (.request req :: rest) = runLoop env rest := by
    rw [runLoop, handleMessage, h1]
    simp
  refine ⟨h1, h2, ?_⟩
  intro res err hmem
  rw [h2] at hmem
  rcases runLoop_response_ids env rest req.id res err hmem with
    ⟨q, hq, hqi, hqr⟩
  exact hid q hq hqr hqi

/-- Witness for C6: a `foo/bar` request followed by a recognized request
with a different identifier: nothing is ever sent for the `foo/bar`
identifier. -/
theorem unrecognized_request_silent_witness :
    handleMessage sampleEnv
      (.request ⟨.num 5, "foo/bar", .null⟩) = .cont [] ∧
    runLoop sampleEnv
      (.request ⟨.num 5, "foo/bar", .null⟩ ::
        [.request ⟨.num 6, "textDocument/references", .null⟩]) =
      runLoop sampleEnv [.request ⟨.num 6, "textDocument/references", .null⟩] ∧
    (∀ res err,
      OutMessage.response (Request.mk (.num 5) "foo/bar" .null).id res err ∉
        (runLoop sampleEnv
          (.request ⟨.num 5, "foo/bar", .null⟩ ::
            [.request ⟨.num 6, "textDocument/references", .null⟩])).1) :=
  unrecognized_request_silent sampleEnv ⟨.num 5, "foo/bar", .null⟩
    [.request ⟨.num 6, "textDocument/references", .null⟩]
    (by decide)
    (by
      intro q hq hr
      simp only [List.mem_singleton] at hq
      injection hq with h
      subst h
      decide)

end TanLsp
